import Mathlib

/-!
Verification of the Ration-Mitr aggregation pipeline (`src/app.py`).

The repository is a single-script pandas/streamlit dashboard.  The only
non-presentational logic is `load_and_process_data` (aggregate the two CSV
inputs by `(state, district)`, inner-merge, score, classify, estimate grain
demand) together with the two derived views (`top_districts`, the hotspot
bar chart input, and `alerts`, the priority table).

Modelling conventions:
* A CSV row becomes a record (`DemoRecord` / `EnrolRecord`); the counts are
  natural numbers (the spec calls them integer counts of events).
* pandas float arithmetic is modelled by exact rational arithmetic; `round`
  (numpy rounding, half to even) becomes `roundTo` below.  Internally all
  rationals are built with `Rat.divInt` and integer arithmetic because the
  `Rat.add/mul/div` field operations are `@[irreducible]` in this toolchain
  and would block kernel evaluation; bridge lemmas relate the two forms.
* the call `pd.DataFrame.groupby(...).sum()` sorts its group keys; key order is
  irrelevant to every property below, so the aggregation keeps the key order
  produced by `List.dedup` instead.
* the call `pd.merge(..., how=inner)` keeps, for each left (demographic) key, the
  matching right (enrolment) total; `lookupKey` plays the role of the right
  hash lookup.
* the `try`/`except FileNotFoundError` wrapper is modelled by `ReadResult`
  (a successful read, a missing file, or a file whose parse raises some
  other exception) and an `Except` result: only `FileNotFoundError` is
  caught and turned into the `None` sentinel.
-/

/-- Key of a district: the `(state, district)` column pair. -/
abbrev DistrictKey := String × String

/-- One row of `api_data_aadhar_demographic_0_500000.csv`:
columns `state`, `district`, `demo_age_17_`. -/
structure DemoRecord where
  state : String
  district : String
  demo_age_17_ : ℕ
deriving DecidableEq, Repr

/-- One row of `api_data_aadhar_enrolment_0_500000.csv`:
columns `state`, `district`, `age_0_5`. -/
structure EnrolRecord where
  state : String
  district : String
  age_0_5 : ℕ
deriving DecidableEq, Repr

def DemoRecord.key (r : DemoRecord) : DistrictKey := (r.state, r.district)

def EnrolRecord.key (r : EnrolRecord) : DistrictKey := (r.state, r.district)

/-- Sum of the selected count column over all source rows with a given key
(the value a `groupby([state, district]).sum()` cell holds). -/
def sumBy (key : α → DistrictKey) (val : α → ℕ) (rows : List α) (k : DistrictKey) : ℕ :=
  ((rows.filter (fun r => decide (key r = k))).map val).sum

/-- Model of `df.groupby([state, district])[[col]].sum().reset_index()`: one row per
distinct key, carrying the summed count.  (pandas sorts the group keys; the
key order is irrelevant to every theorem below, so we keep `dedup` order.) -/
def groupBySum (key : α → DistrictKey) (val : α → ℕ) (rows : List α) :
    List (DistrictKey × ℕ) :=
  ((rows.map key).dedup).map (fun k => (k, sumBy key val rows k))

/-- Aggregate `demo_agg` of `load_and_process_data`. -/
def demo_agg (rows : List DemoRecord) : List (DistrictKey × ℕ) :=
  groupBySum DemoRecord.key (fun r => r.demo_age_17_) rows

/-- Aggregate `enrol_agg` of `load_and_process_data`. -/
def enrol_agg (rows : List EnrolRecord) : List (DistrictKey × ℕ) :=
  groupBySum EnrolRecord.key (fun r => r.age_0_5) rows

/-- First binding of a key in a keyed table (the hash-join probe used to
model `pd.merge(..., on=[state, district], how=inner)`; the aggregate
tables have distinct keys, so "first" is "the" binding). -/
def lookupKey (k : DistrictKey) : List (DistrictKey × ℕ) → Option ℕ
  | [] => none
  | p :: rest => if p.1 = k then some p.2 else lookupKey k rest

/-- Round `n / d` (with `d > 0`) to the nearest integer, ties to even: the
behaviour of numpy/pandas `.round()` on exact values.  `n.fdiv d` is the
floor of the quotient and `n - n.fdiv d * d` its remainder in `[0, d)`; the
remainder is compared with `d / 2`. -/
def roundHalfEven (n d : ℤ) : ℤ :=
  if 2 * (n - n.fdiv d * d) < d then n.fdiv d
  else if d < 2 * (n - n.fdiv d * d) then n.fdiv d + 1
  else if n.fdiv d % 2 = 0 then n.fdiv d else n.fdiv d + 1

/-- Model of `Series.round(p)`: round to `p` decimal places, ties to even. -/
def roundTo (p : ℕ) (x : ℚ) : ℚ :=
  Rat.divInt (roundHalfEven (x.num * (10 : ℤ) ^ p) (x.den : ℤ)) ((10 : ℤ) ^ p)

/-- The three risk levels produced by `get_status`. -/
inductive Status where
  | STABLE
  | WARNING
  | CRITICAL
deriving DecidableEq, Repr

/-- Classifier `get_status` of `load_and_process_data`:
`if score > 50: CRITICAL elif score > 20: WARNING else: STABLE`. -/
def get_status (score : ℚ) : Status :=
  if 50 < score then .CRITICAL
  else if 20 < score then .WARNING
  else .STABLE

/-- One row of the merged/derived table (columns `state`, `district`,
`demo_age_17_` (summed), `age_0_5` (summed), `Migration_Score`, `Status`,
`Grain_Demand_MT`).  The two totals carry the `_total` suffix that the
specification gives the fields of `DistrictMetric`. -/
structure DistrictMetric where
  state : String
  district : String
  demo_age_17_total : ℕ
  age_0_5_total : ℕ
  migration_score : ℚ
  status : Status
  grain_demand_mt : ℚ
deriving DecidableEq, Repr

def DistrictMetric.key (r : DistrictMetric) : DistrictKey := (r.state, r.district)

/-- Build one merged row from a key and its two summed counts:
`Migration_Score = round(demo / (age + 1), 2)`, `Status = get_status(score)`,
`Grain_Demand_MT = round(demo * 0.02, 1)`.  (`Rat.divInt d (a+1)` is the
exact value of the float quotient `d / (a + 1)`, and `Rat.divInt (2*d) 100`
is the exact value of `d * 0.02`; see `divInt_cast_div` and
`divInt_cast_mul_frac` below.) -/
def mkMetric (k : DistrictKey) (d a : ℕ) : DistrictMetric :=
  let score : ℚ := roundTo 2 (Rat.divInt (d : ℤ) ((a : ℤ) + 1))
  { state := k.1
    district := k.2
    demo_age_17_total := d
    age_0_5_total := a
    migration_score := score
    status := get_status score
    grain_demand_mt := roundTo 1 (Rat.divInt (2 * (d : ℤ)) 100) }

/-- The pure body of `load_and_process_data` once both reads succeeded:
aggregate both inputs, inner-merge on `(state, district)`, then derive
score, status and grain demand per row. -/
def processTables (dem : List DemoRecord) (enr : List EnrolRecord) :
    List DistrictMetric :=
  (demo_agg dem).filterMap
    (fun p => (lookupKey p.1 (enrol_agg enr)).map (fun a => mkMetric p.1 p.2 a))

/-- Outcome of one `pd.read_csv` call: rows, or `FileNotFoundError`, or a
read that raises any other exception (malformed file). -/
inductive ReadResult (α : Type) where
  | ok (rows : List α)
  | fileNotFound
  | malformed
deriving DecidableEq, Repr

/-- Exceptions of the read stage. -/
inductive PdError where
  | fileNotFoundError
  | parserError
deriving DecidableEq, Repr

/-- Model of `pd.read_csv` as a fallible call. -/
def read_csv : ReadResult α → Except PdError (List α)
  | .ok rows => .ok rows
  | .fileNotFound => .error .fileNotFoundError
  | .malformed => .error .parserError

/-- Function `load_and_process_data`: run both reads and the pipeline inside
`try: ... except FileNotFoundError: return None`.  `Except.ok none` is the
`None` sentinel; `Except.error e` is an exception that escapes the function
(only `FileNotFoundError` is caught). -/
def load_and_process_data (dem : ReadResult DemoRecord) (enr : ReadResult EnrolRecord) :
    Except PdError (Option (List DistrictMetric)) :=
  match read_csv dem with
  | .error .fileNotFoundError => .ok none
  | .error e => .error e
  | .ok d =>
    match read_csv enr with
    | .error .fileNotFoundError => .ok none
    | .error e => .error e
    | .ok e => .ok (some (processTables d e))

/-- The sidebar region pre-filter `df[df.state == selected_state]`. -/
def filter_by_state (t : List DistrictMetric) (s : String) : List DistrictMetric :=
  t.filter (fun r => decide (r.state = s))

/-- Comparison used by the ascending argsort inside `nargsort`: it compares
only the row values (the migration scores) of index-row pairs; a stable sort
breaks ties by position in the array being sorted. -/
def enumScoreLE (a b : ℕ × DistrictMetric) : Bool :=
  decide (a.2.migration_score ≤ b.2.migration_score)

/-- Model of the indexer that `nargsort(values, kind, ascending=False)`
computes for the hotspot sort, kept paired with the rows it selects.  For a
descending sort pandas reverses the value array *and* the index array, runs
an ascending argsort, and reverses the resulting indexer; the double
reversal makes the descending sort tie-stable whenever the underlying
kernel is stable (pandas GH 6399, test of stable descending sorts).  The
kernel here is a stable merge sort, which is numpy introsort on small
arrays (it degrades to insertion sort, which is stable) and the behaviour
of `kind=stable` in general. -/
def hotspotIndexer (t : List DistrictMetric) : List (ℕ × DistrictMetric) :=
  ((t.enum.reverse).mergeSort enumScoreLE).reverse

/-- Hotspot selection
`df_view.sort_values(by=Migration_Score, ascending=False).head(10)`:
take the rows in indexer order and keep the first ten. -/
def top_districts (t : List DistrictMetric) : List DistrictMetric :=
  ((hotspotIndexer t).map (fun p => p.2)).take 10

/-- Mapping `status_priority` (CRITICAL to 0, WARNING to 1) applied via `.map`.
`STABLE` rows are filtered out before the map is ever applied (pandas would
yield `NaN` there); the value `2` is an arbitrary stand-in never used. -/
def statusPriority : Status → ℕ
  | .CRITICAL => 0
  | .WARNING => 1
  | .STABLE => 2

/-- Comparison used by
`alerts.sort_values(by=[priority_index, Grain_Demand_MT], ascending=[True, False])`:
lexicographic on (priority index ascending, grain demand descending). -/
def alertLE (a b : DistrictMetric × ℕ) : Bool :=
  decide (a.2 < b.2) || (decide (a.2 = b.2) && decide (b.1.grain_demand_mt ≤ a.1.grain_demand_mt))

/-- The Priority Alerts computation, with the base table threaded through
explicitly so that the (absence of) mutation is visible:
`alerts = df_view[df_view.Status.isin([CRITICAL, WARNING])].copy()`
adds the `priority_index` column to the *copy* and sorts it, so the first
component (the base table after the computation) is the input unchanged;
the second component is the sorted alert view, each row paired with its
`priority_index`.  (pandas sorts several keys through `lexsort_indexer`,
a stable lexicographic sort; descending keys are encoded by inverting the
key, not by reversing the result.) -/
def alerts_compute (t : List DistrictMetric) :
    List DistrictMetric × List (DistrictMetric × ℕ) :=
  let filtered := t.filter
    (fun r => decide (r.status = Status.CRITICAL) || decide (r.status = Status.WARNING))
  let withPriority := filtered.map (fun r => (r, statusPriority r.status))
  (t, withPriority.mergeSort alertLE)

/-- The alert view itself. -/
def alerts (t : List DistrictMetric) : List (DistrictMetric × ℕ) :=
  (alerts_compute t).2

/-! Concrete inputs used by the scenario conjuncts and witnesses. -/

/-- Demographic input of the scenario of §8: district X with summed count 120. -/
def demX : List DemoRecord := [⟨"StateX", "X", 120⟩]

/-- Enrolment input of the scenario of §8: district X with summed count 1. -/
def enrX : List EnrolRecord := [⟨"StateX", "X", 1⟩]

/-- Enrolment input equal to `enrX` except for the `age_0_5` value. -/
def enrX2 : List EnrolRecord := [⟨"StateX", "X", 7⟩]

/-- The output row of the scenario: score 60, CRITICAL, grain 2.4 (= 12/5). -/
def rowX : DistrictMetric :=
  ⟨"StateX", "X", 120, 1, 60, Status.CRITICAL, Rat.divInt 12 5⟩

/-- The output row for `demX` with `enrX2`: score 15, STABLE, same grain. -/
def rowX2 : DistrictMetric :=
  ⟨"StateX", "X", 120, 7, 15, Status.STABLE, Rat.divInt 12 5⟩

/-! Helper lemmas. -/

theorem mkMetric_key (k : DistrictKey) (d a : ℕ) : (mkMetric k d a).key = k := rfl

theorem mkMetric_demo_total (k : DistrictKey) (d a : ℕ) :
    (mkMetric k d a).demo_age_17_total = d := rfl

theorem mkMetric_age_total (k : DistrictKey) (d a : ℕ) :
    (mkMetric k d a).age_0_5_total = a := rfl

theorem mkMetric_score (k : DistrictKey) (d a : ℕ) :
    (mkMetric k d a).migration_score = roundTo 2 (Rat.divInt (d : ℤ) ((a : ℤ) + 1)) := rfl

theorem mkMetric_status (k : DistrictKey) (d a : ℕ) :
    (mkMetric k d a).status = get_status (roundTo 2 (Rat.divInt (d : ℤ) ((a : ℤ) + 1))) := rfl

theorem mkMetric_grain (k : DistrictKey) (d a : ℕ) :
    (mkMetric k d a).grain_demand_mt = roundTo 1 (Rat.divInt (2 * (d : ℤ)) 100) := rfl

/-- The exact rational value of the float quotient `d / (a + 1)`. -/
theorem divInt_cast_div (d a : ℕ) :
    Rat.divInt (d : ℤ) ((a : ℤ) + 1) = (d : ℚ) / ((a : ℚ) + 1) := by
  rw [Rat.divInt_eq_div]
  push_cast
  ring

/-- The exact rational value of the float product `d * 0.02`. -/
theorem divInt_cast_mul_frac (d : ℕ) :
    Rat.divInt (2 * (d : ℤ)) 100 = (d : ℚ) * (2 / 100) := by
  rw [Rat.divInt_eq_div]
  push_cast
  ring

theorem roundHalfEven_nonneg {n d : ℤ} (hn : 0 ≤ n) (hd : 0 ≤ d) :
    0 ≤ roundHalfEven n d := by
  have hq : 0 ≤ n.fdiv d := Int.fdiv_nonneg hn hd
  unfold roundHalfEven
  split_ifs <;> omega

theorem roundTo_nonneg {x : ℚ} (p : ℕ) (h : 0 ≤ x) : 0 ≤ roundTo p x := by
  unfold roundTo
  apply Rat.divInt_nonneg
  · apply roundHalfEven_nonneg
    · exact mul_nonneg (Rat.num_nonneg.mpr h) (pow_nonneg (by norm_num) p)
    · exact Int.natCast_nonneg _
  · exact pow_nonneg (by norm_num) p

theorem lookupKey_map (f : DistrictKey → ℕ) (ks : List DistrictKey) (k : DistrictKey) :
    lookupKey k (ks.map (fun x => (x, f x))) = if k ∈ ks then some (f k) else none := by
  induction ks with
  | nil => rfl
  | cons a rest ih =>
    simp only [List.map_cons, lookupKey, List.mem_cons]
    rcases eq_or_ne a k with h | h
    · subst h
      simp
    · simp [h, Ne.symm h, ih]

theorem lookupKey_groupBySum (key : α → DistrictKey) (val : α → ℕ)
    (rows : List α) (k : DistrictKey) :
    lookupKey k (groupBySum key val rows) =
      if k ∈ rows.map key then some (sumBy key val rows k) else none := by
  unfold groupBySum
  rw [lookupKey_map]
  simp [List.mem_dedup]

theorem mem_demo_agg (dem : List DemoRecord) (p : DistrictKey × ℕ) :
    p ∈ demo_agg dem ↔
      ∃ k, k ∈ dem.map DemoRecord.key ∧
        p = (k, sumBy DemoRecord.key (fun r => r.demo_age_17_) dem k) := by
  simp [demo_agg, groupBySum, List.mem_dedup, eq_comm]

theorem mem_processTables (dem : List DemoRecord) (enr : List EnrolRecord)
    (r : DistrictMetric) :
    r ∈ processTables dem enr ↔
      ∃ k, k ∈ dem.map DemoRecord.key ∧ k ∈ enr.map EnrolRecord.key ∧
        r = mkMetric k (sumBy DemoRecord.key (fun x => x.demo_age_17_) dem k)
              (sumBy EnrolRecord.key (fun x => x.age_0_5) enr k) := by
  unfold processTables
  simp only [List.mem_filterMap, Option.map_eq_some']
  constructor
  · rintro ⟨p, hp, a, ha, rfl⟩
    obtain ⟨k, hk, rfl⟩ := (mem_demo_agg dem p).1 hp
    rw [enrol_agg, lookupKey_groupBySum] at ha
    by_cases hke : k ∈ enr.map EnrolRecord.key
    · rw [if_pos hke] at ha
      obtain rfl : sumBy EnrolRecord.key (fun r => r.age_0_5) enr k = a :=
        Option.some_injective _ ha
      exact ⟨k, hk, hke, rfl⟩
    · rw [if_neg hke] at ha
      exact absurd ha (by simp)
  · rintro ⟨k, hk, hke, rfl⟩
    refine ⟨(k, sumBy DemoRecord.key (fun x => x.demo_age_17_) dem k),
      (mem_demo_agg dem _).2 ⟨k, hk, rfl⟩,
      sumBy EnrolRecord.key (fun x => x.age_0_5) enr k, ?_, rfl⟩
    rw [enrol_agg, lookupKey_groupBySum, if_pos hke]

/-! Claim theorems. -/

/-- C1: every output row satisfies
`migration_score = round(demo_age_17_total / (age_0_5_total + 1), 2)`; in
particular a district with summed `demo_age_17_` 120 and summed `age_0_5` 1
gets `migration_score = 60`, `status = CRITICAL`, `grain_demand_mt = 2.4`. -/
theorem migration_score_formula_and_scenario :
    (∀ (dem : List DemoRecord) (enr : List EnrolRecord) (r : DistrictMetric),
        r ∈ processTables dem enr →
        r.migration_score =
          roundTo 2 ((r.demo_age_17_total : ℚ) / ((r.age_0_5_total : ℚ) + 1)))
    ∧ processTables demX enrX = [rowX]
    ∧ rowX.migration_score = 60
    ∧ rowX.status = Status.CRITICAL
    ∧ rowX.grain_demand_mt = 24 / 10 := by
  refine ⟨?_, by decide, rfl, rfl, ?_⟩
  · intro dem enr r hr
    obtain ⟨k, -, -, rfl⟩ := (mem_processTables dem enr r).1 hr
    rw [mkMetric_score, mkMetric_demo_total, mkMetric_age_total, divInt_cast_div]
  · show Rat.divInt 12 5 = 24 / 10
    rw [Rat.divInt_eq_div]
    norm_num

/-- Witness for C1: the formula evaluated on the scenario row. -/
theorem migration_score_formula_witness :
    rowX.migration_score =
      roundTo 2 ((rowX.demo_age_17_total : ℚ) / ((rowX.age_0_5_total : ℚ) + 1)) :=
  migration_score_formula_and_scenario.1 demX enrX rowX (by decide)

/-- C7: every output row satisfies
`grain_demand_mt = round(demo_age_17_total * 0.02, 1)` and the value is
non-negative. -/
theorem grain_demand_formula_nonneg :
    ∀ (dem : List DemoRecord) (enr : List EnrolRecord) (r : DistrictMetric),
      r ∈ processTables dem enr →
      r.grain_demand_mt = roundTo 1 ((r.demo_age_17_total : ℚ) * (2 / 100))
        ∧ 0 ≤ r.grain_demand_mt := by
  intro dem enr r hr
  obtain ⟨k, -, -, rfl⟩ := (mem_processTables dem enr r).1 hr
  rw [mkMetric_grain, mkMetric_demo_total]
  constructor
  · rw [divInt_cast_mul_frac]
  · apply roundTo_nonneg
    apply Rat.divInt_nonneg
    · positivity
    · norm_num

/-- Witness for C7: the grain formula and sign evaluated on the scenario row. -/
theorem grain_demand_formula_witness :
    rowX.grain_demand_mt = roundTo 1 ((rowX.demo_age_17_total : ℚ) * (2 / 100))
      ∧ 0 ≤ rowX.grain_demand_mt :=
  grain_demand_formula_nonneg demX enrX rowX (by decide)

/-- C9: with the demographic input fixed, changing only the `age_0_5` values
of the enrolment input (same keys, in the same order) never changes the
`grain_demand_mt` of a district present in both outputs. -/
theorem grain_demand_independent_of_enrolment :
    ∀ (dem : List DemoRecord) (enr₁ enr₂ : List EnrolRecord)
      (r₁ r₂ : DistrictMetric),
      enr₁.map EnrolRecord.key = enr₂.map EnrolRecord.key →
      r₁ ∈ processTables dem enr₁ →
      r₂ ∈ processTables dem enr₂ →
      r₁.key = r₂.key →
      r₁.grain_demand_mt = r₂.grain_demand_mt := by
  intro dem enr₁ enr₂ r₁ r₂ _ h₁ h₂ hkey
  obtain ⟨k₁, -, -, rfl⟩ := (mem_processTables dem enr₁ r₁).1 h₁
  obtain ⟨k₂, -, -, rfl⟩ := (mem_processTables dem enr₂ r₂).1 h₂
  obtain rfl : k₁ = k₂ := by rwa [mkMetric_key, mkMetric_key] at hkey
  rw [mkMetric_grain, mkMetric_grain]

/-- Witness for C9: the districts of `enrX` and `enrX2` agree, only the
count differs, and the two scenario rows get the same grain demand. -/
theorem grain_demand_independent_witness :
    rowX.grain_demand_mt = rowX2.grain_demand_mt :=
  grain_demand_independent_of_enrolment demX enrX enrX2 rowX rowX2
    (by decide) (by decide) (by decide) (by decide)

/-- C2: the classification is total, mutually exclusive and exhaustive:
`get_status s = CRITICAL` iff `s > 50`, `= WARNING` iff `20 < s <= 50`,
`= STABLE` iff `s <= 20`; exactly one of the three holds for every score. -/
theorem status_thresholds_total :
    ∀ s : ℚ,
      (get_status s = Status.CRITICAL ↔ 50 < s)
      ∧ (get_status s = Status.WARNING ↔ 20 < s ∧ s ≤ 50)
      ∧ (get_status s = Status.STABLE ↔ s ≤ 20) := by
  intro s
  unfold get_status
  split_ifs with h1 h2
  · exact ⟨⟨fun _ => h1, fun _ => rfl⟩,
      ⟨fun h => absurd h (by decide), fun h => absurd h1 (not_lt.mpr h.2)⟩,
      ⟨fun h => absurd h (by decide), fun h => absurd h1 (not_lt.mpr (by linarith))⟩⟩
  · exact ⟨⟨fun h => absurd h (by decide), fun h => absurd h h1⟩,
      ⟨fun _ => ⟨h2, not_lt.mp h1⟩, fun _ => rfl⟩,
      ⟨fun h => absurd h (by decide), fun h => absurd h2 (not_lt.mpr h)⟩⟩
  · exact ⟨⟨fun h => absurd h (by decide), fun h => absurd h h1⟩,
      ⟨fun h => absurd h (by decide), fun h => absurd h.1 h2⟩,
      ⟨fun _ => not_lt.mp h2, fun _ => rfl⟩⟩

/-- C3: a `(state, district)` key appears in the output exactly when it
appears in both source datasets; a district present in only one source is
dropped entirely. -/
theorem inner_join_key_iff :
    ∀ (dem : List DemoRecord) (enr : List EnrolRecord) (k : DistrictKey),
      (∃ r, r ∈ processTables dem enr ∧ r.key = k) ↔
        ((∃ d, d ∈ dem ∧ d.key = k) ∧ (∃ e, e ∈ enr ∧ e.key = k)) := by
  intro dem enr k
  constructor
  · rintro ⟨r, hr, hkey⟩
    obtain ⟨k', hk1, hk2, rfl⟩ := (mem_processTables dem enr r).1 hr
    rw [mkMetric_key] at hkey
    subst hkey
    exact ⟨List.mem_map.1 hk1, List.mem_map.1 hk2⟩
  · rintro ⟨⟨d, hd, hdk⟩, ⟨e, he, hek⟩⟩
    exact ⟨_, (mem_processTables dem enr _).2
      ⟨k, List.mem_map.2 ⟨d, hd, hdk⟩, List.mem_map.2 ⟨e, he, hek⟩, rfl⟩,
      mkMetric_key k _ _⟩

/-- C8: looking up any key in either aggregate yields the sum of that
source column over all source rows with that key (and nothing for an absent
key); in particular two demographic rows for district Z with values 5 and
10 aggregate to 15. -/
theorem aggregation_sums_by_key :
    (∀ (dem : List DemoRecord) (k : DistrictKey),
        lookupKey k (demo_agg dem) =
          if k ∈ dem.map DemoRecord.key
          then some (((dem.filter (fun r => decide (r.key = k))).map
            (fun r => r.demo_age_17_)).sum)
          else none)
    ∧ (∀ (enr : List EnrolRecord) (k : DistrictKey),
        lookupKey k (enrol_agg enr) =
          if k ∈ enr.map EnrolRecord.key
          then some (((enr.filter (fun r => decide (r.key = k))).map
            (fun r => r.age_0_5)).sum)
          else none)
    ∧ demo_agg [⟨"S", "Z", 5⟩, ⟨"S", "Z", 10⟩] = [(("S", "Z"), 15)] := by
  refine ⟨?_, ?_, by decide⟩
  · intro dem k
    exact lookupKey_groupBySum DemoRecord.key (fun r => r.demo_age_17_) dem k
  · intro enr k
    exact lookupKey_groupBySum EnrolRecord.key (fun r => r.age_0_5) enr k

/-- C6 counterexample: a malformed (unreadable but present) input does not
yield the `None` sentinel — the parse exception escapes, because the code
catches only `FileNotFoundError`. -/
theorem malformed_input_not_sentinel :
    load_and_process_data .malformed (.ok []) = .error .parserError
    ∧ load_and_process_data .malformed (.ok []) ≠ .ok none :=
  ⟨rfl, fun h => Except.noConfusion h⟩

/-- C6 as amended: the pipeline returns the `None` sentinel exactly when a
file is missing (first read missing, or first read fine and second missing),
with no partial table; when both reads succeed it returns the full table;
a malformed input instead raises an uncaught parse exception. -/
theorem sentinel_iff_file_not_found :
    ∀ (dem : ReadResult DemoRecord) (enr : ReadResult EnrolRecord),
      (load_and_process_data dem enr = .ok none ↔
        dem = .fileNotFound ∨ (∃ d, dem = .ok d ∧ enr = .fileNotFound))
      ∧ (∀ (d : List DemoRecord) (e : List EnrolRecord),
          load_and_process_data (.ok d) (.ok e) = .ok (some (processTables d e)))
      ∧ (∀ e : ReadResult EnrolRecord,
          load_and_process_data .malformed e = .error .parserError)
      ∧ (∀ d : List DemoRecord,
          load_and_process_data (.ok d) .malformed = .error .parserError) := by
  intro dem enr
  refine ⟨?_, fun d e => rfl, fun e => rfl, fun d => rfl⟩
  cases dem <;> cases enr <;> simp [load_and_process_data, read_csv]

/-- C10: computing the alert view leaves the metric table it is derived from
untouched (the filtered frame is copied before the `priority_index` column
is added), so the base table, the hotspot view and a recomputed alert view
are all unchanged. -/
theorem alerts_no_mutation :
    ∀ t : List DistrictMetric,
      (alerts_compute t).1 = t
      ∧ (alerts_compute t).2 = alerts t
      ∧ top_districts (alerts_compute t).1 = top_districts t
      ∧ alerts (alerts_compute t).1 = alerts t
      ∧ filter_by_state (alerts_compute t).1 = filter_by_state t :=
  fun t => ⟨rfl, rfl, rfl, rfl, rfl⟩

/-- C5: the alert view holds exactly the CRITICAL/WARNING rows of the
table (as a multiset), every row carries its `priority_index` (CRITICAL 0,
WARNING 1), no WARNING row ever precedes a CRITICAL row, and rows of equal
status appear with non-increasing `grain_demand_mt`. -/
theorem alerts_view_spec :
    ∀ t : List DistrictMetric,
      ((alerts t).map Prod.fst).Perm
        (t.filter (fun r =>
          decide (r.status = Status.CRITICAL) || decide (r.status = Status.WARNING)))
      ∧ (alerts t).Forall
          (fun p => (p.1.status = Status.CRITICAL ∧ p.2 = 0)
            ∨ (p.1.status = Status.WARNING ∧ p.2 = 1))
      ∧ (alerts t).Pairwise
          (fun a b =>
            (a.1.status = Status.CRITICAL ∨ b.1.status = Status.WARNING)
            ∧ (a.1.status ≠ b.1.status
              ∨ b.1.grain_demand_mt ≤ a.1.grain_demand_mt)) := by
  intro t
  have hperm : (alerts t).Perm
      ((t.filter (fun r =>
        decide (r.status = Status.CRITICAL) || decide (r.status = Status.WARNING))).map
        (fun r => (r, statusPriority r.status))) :=
    List.mergeSort_perm _ _
  have hmem : ∀ p ∈ alerts t,
      (p.1.status = Status.CRITICAL ∧ p.2 = 0)
        ∨ (p.1.status = Status.WARNING ∧ p.2 = 1) := by
    intro p hp
    obtain ⟨r, hr, rfl⟩ := List.mem_map.1 (hperm.mem_iff.1 hp)
    have hst := (List.mem_filter.1 hr).2
    simp only [Bool.or_eq_true, decide_eq_true_eq] at hst
    rcases hst with h | h
    · exact Or.inl ⟨h, by rw [h]; rfl⟩
    · exact Or.inr ⟨h, by rw [h]; rfl⟩
  refine ⟨?_, ?_, ?_⟩
  · have h1 := hperm.map Prod.fst
    rwa [List.map_map,
      show (Prod.fst ∘ fun r : DistrictMetric => (r, statusPriority r.status)) = id from rfl,
      List.map_id] at h1
  · exact List.forall_iff_forall_mem.2 hmem
  · have hsorted : (alerts t).Pairwise (fun a b => alertLE a b = true) := by
      apply List.sorted_mergeSort
      · intro a b c hab hbc
        simp only [alertLE, Bool.or_eq_true, Bool.and_eq_true, decide_eq_true_eq] at *
        rcases hab with h | ⟨h, hg⟩ <;> rcases hbc with h' | ⟨h', hg'⟩
        · exact Or.inl (h.trans h')
        · exact Or.inl (by omega)
        · exact Or.inl (by omega)
        · exact Or.inr ⟨by omega, hg'.trans hg⟩
      · intro a b
        simp only [alertLE, Bool.or_eq_true, Bool.and_eq_true, decide_eq_true_eq]
        rcases lt_trichotomy a.2 b.2 with h | h | h
        · exact Or.inl (Or.inl h)
        · rcases le_total b.1.grain_demand_mt a.1.grain_demand_mt with hg | hg
          · exact Or.inl (Or.inr ⟨h, hg⟩)
          · exact Or.inr (Or.inr ⟨h.symm, hg⟩)
        · exact Or.inr (Or.inl h)
    refine hsorted.imp_of_mem ?_
    intro a b ha hb hab
    have hA := hmem a ha
    have hB := hmem b hb
    simp only [alertLE, Bool.or_eq_true, Bool.and_eq_true, decide_eq_true_eq] at hab
    constructor
    · rcases hA with ⟨hs, hp⟩ | ⟨hs, hp⟩
      · exact Or.inl hs
      · rcases hB with ⟨hs', hp'⟩ | ⟨hs', hp'⟩
        · exfalso
          rcases hab with h | ⟨h, -⟩ <;> omega
        · exact Or.inr hs'
    · rcases hA with ⟨hs, hp⟩ | ⟨hs, hp⟩ <;> rcases hB with ⟨hs', hp'⟩ | ⟨hs', hp'⟩
      · refine Or.inr ?_
        rcases hab with h | ⟨-, hg⟩
        · exact absurd h (by omega)
        · exact hg
      · refine Or.inl ?_
        rw [hs, hs']
        exact fun hcon => Status.noConfusion hcon
      · refine Or.inl ?_
        rw [hs, hs']
        exact fun hcon => Status.noConfusion hcon
      · refine Or.inr ?_
        rcases hab with h | ⟨-, hg⟩
        · exact absurd h (by omega)
        · exact hg

theorem sublist_pair_or {l : List α} {a b : α} (ha : a ∈ l) (hb : b ∈ l)
    (hne : a ≠ b) : List.Sublist [a, b] l ∨ List.Sublist [b, a] l := by
  induction l with
  | nil => cases ha
  | cons x xs ih =>
    rcases List.mem_cons.1 ha with rfl | ha'
    · have hb' : b ∈ xs := by
        rcases List.mem_cons.1 hb with h | h
        · exact absurd h.symm hne
        · exact h
      exact Or.inl (List.Sublist.cons₂ a (List.singleton_sublist.2 hb'))
    · rcases List.mem_cons.1 hb with rfl | hb'
      · exact Or.inr (List.Sublist.cons₂ b (List.singleton_sublist.2 ha'))
      · exact (ih ha' hb').imp (List.Sublist.cons x) (List.Sublist.cons x)

theorem sublist_pair_asymm : ∀ {l : List α}, l.Nodup → ∀ {a b : α}, a ≠ b →
    List.Sublist [a, b] l → List.Sublist [b, a] l → False := by
  intro l
  induction l with
  | nil =>
    intro _ a b _ h1 _
    simp at h1
  | cons x xs ih =>
    intro hnd a b hne h1 h2
    have hx : x ∉ xs := (List.nodup_cons.1 hnd).1
    have hxs : xs.Nodup := (List.nodup_cons.1 hnd).2
    cases h1 with
    | cons _ h1' =>
      cases h2 with
      | cons _ h2' => exact ih hxs hne h1' h2'
      | cons₂ _ h2' => exact hx (h1'.subset (by simp))
    | cons₂ _ h1' =>
      cases h2 with
      | cons _ h2' => exact hx (h2'.subset (by simp))
      | cons₂ _ h2' => exact hne rfl

theorem pairwise_fst_lt_enumFrom (j : ℕ) (l : List α) :
    (l.enumFrom j).Pairwise (fun p q => p.1 < q.1) := by
  induction l generalizing j with
  | nil => simp
  | cons x xs ih =>
    rw [List.enumFrom_cons]
    refine List.Pairwise.cons ?_ (ih (j + 1))
    intro q hq
    have := List.le_fst_of_mem_enumFrom hq
    exact Nat.lt_of_lt_of_le (Nat.lt_succ_self j) this

theorem enumScoreLE_trans (a b c : ℕ × DistrictMetric) :
    enumScoreLE a b → enumScoreLE b c → enumScoreLE a c := by
  simp only [enumScoreLE, decide_eq_true_eq]
  exact le_trans

theorem enumScoreLE_total (a b : ℕ × DistrictMetric) :
    enumScoreLE a b || enumScoreLE b a := by
  simp only [enumScoreLE, Bool.or_eq_true, decide_eq_true_eq]
  exact le_total _ _

/-- C4: the hotspot view has length `min 10 rowcount` and is ordered by
`migration_score` in non-increasing order, with ties between equal scores
broken by original row order (stable): the indexer pairs every selected row
with its position in the table, its rows are a permutation of the table,
the view is the first ten indexer rows, and any two tied rows of the view
carry strictly increasing original positions. -/
theorem hotspot_view_spec :
    ∀ t : List DistrictMetric,
      (top_districts t).length = min 10 t.length
      ∧ (top_districts t).Pairwise (fun a b => b.migration_score ≤ a.migration_score)
      ∧ ((hotspotIndexer t).map (fun p => p.2)).Perm t
      ∧ (hotspotIndexer t).Forall (fun p => t[p.1]? = some p.2)
      ∧ top_districts t = ((hotspotIndexer t).take 10).map (fun p => p.2)
      ∧ ((hotspotIndexer t).take 10).Pairwise
          (fun a b => a.2.migration_score ≠ b.2.migration_score ∨ a.1 < b.1) := by
  intro t
  have hMperm : List.Perm ((t.enum.reverse).mergeSort enumScoreLE) (t.enum.reverse) :=
    List.mergeSort_perm _ _
  have henum_nodup : t.enum.Nodup :=
    (pairwise_fst_lt_enumFrom 0 t).imp
      (fun hlt heq => absurd (heq ▸ hlt) (lt_irrefl _))
  have hE_nodup : (t.enum.reverse).Nodup := List.nodup_reverse.mpr henum_nodup
  have hM_nodup : ((t.enum.reverse).mergeSort enumScoreLE).Nodup :=
    hMperm.symm.nodup hE_nodup
  have hEdec : (t.enum.reverse).Pairwise (fun p q => q.1 < p.1) := by
    rw [List.pairwise_reverse]
    exact pairwise_fst_lt_enumFrom 0 t
  have hstab : ((t.enum.reverse).mergeSort enumScoreLE).Pairwise
      (fun p q => p.2.migration_score ≠ q.2.migration_score ∨ q.1 < p.1) := by
    rw [List.pairwise_iff_forall_sublist]
    intro a b hab
    by_cases htie : a.2.migration_score = b.2.migration_score
    · refine Or.inr ?_
      have hne : a ≠ b := by
        rintro rfl
        have : ([a, a] : List (ℕ × DistrictMetric)).Nodup := hab.nodup hM_nodup
        simp at this
      have haE : a ∈ t.enum.reverse := hMperm.mem_iff.1 (hab.subset (by simp))
      have hbE : b ∈ t.enum.reverse := hMperm.mem_iff.1 (hab.subset (by simp))
      rcases sublist_pair_or haE hbE hne with hord | hord
      · have hpw := List.Pairwise.sublist hord hEdec
        exact (List.pairwise_cons.1 hpw).1 b (by simp)
      · exfalso
        have hba : enumScoreLE b a = true := by
          simp only [enumScoreLE, decide_eq_true_eq]
          exact le_of_eq htie.symm
        exact sublist_pair_asymm hM_nodup hne.symm
          (List.pair_sublist_mergeSort enumScoreLE_trans enumScoreLE_total hba hord)
          hab
    · exact Or.inl htie
  have hsort : ((t.enum.reverse).mergeSort enumScoreLE).Pairwise
      (fun p q => p.2.migration_score ≤ q.2.migration_score) :=
    (List.sorted_mergeSort enumScoreLE_trans enumScoreLE_total _).imp
      (fun h => by simpa [enumScoreLE] using h)
  have hIdesc : (hotspotIndexer t).Pairwise
      (fun p q => q.2.migration_score ≤ p.2.migration_score) := by
    unfold hotspotIndexer
    rw [List.pairwise_reverse]
    exact hsort
  have hIstab : (hotspotIndexer t).Pairwise
      (fun p q => p.2.migration_score ≠ q.2.migration_score ∨ p.1 < q.1) := by
    unfold hotspotIndexer
    rw [List.pairwise_reverse]
    exact hstab.imp (fun h => h.imp Ne.symm id)
  have hmapsnd : (t.enum.reverse).map (fun p : ℕ × DistrictMetric => p.2) = t.reverse := by
    rw [List.map_reverse]
    congr 1
    exact List.enum_map_snd t
  have hperm3 : ((hotspotIndexer t).map (fun p => p.2)).Perm t := by
    unfold hotspotIndexer
    rw [List.map_reverse]
    refine (List.reverse_perm _).trans ?_
    refine (hMperm.map _).trans ?_
    rw [hmapsnd]
    exact List.reverse_perm t
  have hforall : (hotspotIndexer t).Forall (fun p => t[p.1]? = some p.2) := by
    rw [List.forall_iff_forall_mem]
    intro p hp
    simp only [hotspotIndexer, List.mem_reverse, List.mem_mergeSort] at hp
    exact List.mem_enum_iff_getElem?.1 hp
  refine ⟨?_, ?_, hperm3, hforall, ?_, ?_⟩
  · simp [top_districts, hotspotIndexer]
  · have hPW : ((hotspotIndexer t).map (fun p => p.2)).Pairwise
        (fun a b => b.migration_score ≤ a.migration_score) :=
      List.pairwise_map.2 hIdesc
    exact List.Pairwise.sublist (List.take_sublist 10 _) hPW
  · unfold top_districts
    rw [List.map_take]
  · exact List.Pairwise.sublist (List.take_sublist 10 _) hIstab
